import Mathlib

/-!
Shallow embedding of `competitions/models.py` from the roots repository.

Django model records become Lean structures and queryset operations become
list operations.  Time is modelled by an explicit integer `now` argument
(the value of Django's `now()`), so every helper that reads the clock takes
it as a parameter.  Foreign keys are modelled by numeric ids or by embedding
the list of child rows (`season_set`, `series_set`).  A queryset obtained
from a related manager carries the related model's default `Meta.ordering`,
which we apply explicitly with `List.insertionSort`.
-/

namespace Roots

/-- A row of the user-solution table (`problems` app): it has a primary key
and the submitting user, and is reached here through
`problem.usersolution_set` and the `usersolution__pk__in` filter. -/
structure UserSolution where
  pk : Nat
  user : Nat
deriving Repr, DecidableEq

/-- A problem, carrying its reverse relation `usersolution_set`. -/
structure Problem where
  pk : Nat
  usersolution_set : List UserSolution
deriving Repr, DecidableEq

/-- A problem set (`problems.ProblemSet`), carrying its `problems`
relation. -/
structure ProblemSet where
  pk : Nat
  problems : List Problem
deriving Repr, DecidableEq

/-- `competitions.Series`.  `submission_deadline` is an `Option` because an
in-memory instance may not have the field assigned yet (`Series.clean`
checks `not self.submission_deadline`); timestamps are integers. -/
structure Series where
  pk : Nat
  seasonId : Nat
  name : String
  number : Nat
  problemset : Option ProblemSet
  submission_deadline : Option Int
  is_active : Bool
deriving Repr, DecidableEq

/-- `competitions.Season`, with its reverse relation `series_set`. -/
structure Season where
  pk : Nat
  competitionId : Nat
  year : Int
  number : Int
  name : String
  join_deadline : Option Int
  start : Int
  «end» : Int
  series_set : List Series
deriving Repr, DecidableEq

/-- `competitions.Competition`, with its reverse relation `season_set`. -/
structure Competition where
  name : String
  organizer_group : Option Nat
  season_set : List Season
deriving Repr, DecidableEq

/-- `competitions.CompetitionUserRegistration`; `added_at` is the creation
timestamp attached by the `with_timestamp` decorator, used by
`Meta.ordering = ['added_at']`. -/
structure CompetitionUserRegistration where
  competitionId : Nat
  userId : Nat
  added_at : Int
deriving Repr, DecidableEq

/-- `competitions.CompetitionOrgRegistration`, with the `approved` flag and
the `with_timestamp` creation timestamp. -/
structure CompetitionOrgRegistration where
  competitionId : Nat
  organizerId : Nat
  approved : Bool
  added_at : Int
deriving Repr, DecidableEq

/-- `ORDER BY submission_deadline` comparison on the option-valued field;
`none` sorts first (irrelevant for stored rows: the column is NOT NULL in
the schema). -/
def Series.deadlineLe (a b : Series) : Bool :=
  match a.submission_deadline, b.submission_deadline with
  | none, _ => true
  | some _, none => false
  | some x, some y => decide (x ≤ y)

/-- The composite ordering key of `Season.Meta.ordering =
['competition', 'year', 'number']`, compared lexicographically. -/
def Season.keyLe (a b : Season) : Bool :=
  decide (a.competitionId < b.competitionId) ||
    (a.competitionId == b.competitionId &&
      (decide (a.year < b.year) ||
        (a.year == b.year && decide (a.number ≤ b.number))))

/-- A season's `series_set.all()` in the default `Series.Meta.ordering =
['submission_deadline']`. -/
def Season.seriesOrdered (se : Season) : List Series :=
  List.insertionSort (fun a b => Series.deadlineLe a b) se.series_set

/-- A competition's `season_set.all()` in the default `Season.Meta.ordering
= ['competition', 'year', 'number']`. -/
def Competition.seasonsOrdered (c : Competition) : List Season :=
  List.insertionSort (fun a b => Season.keyLe a b) c.season_set

/-- The filter condition `start__lt=now(), end__gt=now()` of
`Competition.get_active_season`. -/
def Season.activeFilter (now : Int) (se : Season) : Bool :=
  decide (se.start < now) && decide (now < se.«end»)

/-- `Competition.get_active_season`: filters the competition's seasons to
those whose window strictly contains `now` and returns the first candidate
(in the default season ordering) if one exists, else `None`. -/
def Competition.get_active_season (now : Int) (c : Competition) :
    Option Season :=
  let season_candidates := (c.seasonsOrdered).filter (Season.activeFilter now)
  if season_candidates.isEmpty = false then season_candidates.head?
  else none

/-- The filter condition `submission_deadline__gt=now()` of
`Season.get_series_nearest_deadline`; a SQL comparison with `NULL` is not
satisfied. -/
def Series.deadlineGtNow (now : Int) (s : Series) : Bool :=
  match s.submission_deadline with
  | some d => decide (now < d)
  | none => false

/-- `Season.get_series_nearest_deadline`: the first series (in ascending
deadline order) whose deadline is still ahead of `now`; otherwise the first
series of `order_by('-submission_deadline')` when any series exists;
otherwise `None`. -/
def Season.get_series_nearest_deadline (now : Int) (se : Season) :
    Option Series :=
  let active_series := (se.seriesOrdered).filter (Series.deadlineGtNow now)
  if active_series.isEmpty = false then active_series.head?
  else
    if se.series_set.isEmpty = false then
      (List.insertionSort (fun a b => Series.deadlineLe b a) se.series_set).head?
    else none

/-- Helper for queryset `DISTINCT`: keep the rows not seen before. -/
def dedupFirstAux {α : Type} [DecidableEq α] (seen : List α) :
    List α → List α
  | [] => []
  | x :: xs =>
    if x ∈ seen then dedupFirstAux seen xs
    else x :: dedupFirstAux (x :: seen) xs

/-- Queryset `DISTINCT`: drop every repeated row, keeping first
occurrences. -/
def dedupFirst {α : Type} [DecidableEq α] (l : List α) : List α :=
  dedupFirstAux [] l

/-- The users delivered by
`User.objects.filter(usersolution__pk__in=problem.usersolution_set.all())`:
one row per matching solution (hence possibly repeated users). -/
def Problem.submitters (p : Problem) : List Nat :=
  p.usersolution_set.map (fun sol => sol.user)

/-- `Series.get_competitors`: iterates `self.problemset.problems.all()`,
accumulating the per-problem submitter querysets with queryset union, and
applies `.distinct()` to the result.  When `problemset` is unset,
`self.problemset.problems` dereferences `None` and raises
`AttributeError`, modelled as `none`. -/
def Series.get_competitors (s : Series) : Option (List Nat) :=
  match s.problemset with
  | none => none
  | some ps => some (dedupFirst ((ps.problems.map Problem.submitters).flatten))

/-- The `for series in self.series_set.all()` loop of
`Season.get_competitors`: per-series querysets are taken left to right and
the first `AttributeError` aborts the whole call. -/
def collectCompetitors : List Series → Option (List (List Nat))
  | [] => some []
  | s :: rest =>
    match s.get_competitors, collectCompetitors rest with
    | some l, some ls => some (l :: ls)
    | _, _ => none

/-- `Season.get_competitors`: unions the per-series competitor querysets.
`User.objects.none()` is absorbed by `|`, each `series.get_competitors()`
queryset carries the `DISTINCT` flag, and Django's `|` keeps that flag
while OR-combining the queries, so the accumulated queryset is a single
distinct query over every series' solutions.  It propagates the
`AttributeError` as soon as one series lacks a problem set. -/
def Season.get_competitors (se : Season) : Option (List Nat) :=
  match collectCompetitors se.seriesOrdered with
  | none => none
  | some lists => some (dedupFirst lists.flatten)

/-- `Series.is_past_submission_deadline`: `now() > self.submission_deadline`.
Under CPython 2's default cross-type ordering `None` is below any
`datetime`, so with an unset deadline the comparison yields `True`; the
only caller in the file, `clean`, checks the deadline for `None` first. -/
def Series.is_past_submission_deadline (now : Int) (s : Series) : Bool :=
  match s.submission_deadline with
  | some d => decide (now > d)
  | none => true

/-- The two ways persisting a `Series` can fail: the `ValidationError`
raised by `Series.clean`, or the database rejecting a row that violates a
schema constraint. -/
inductive SaveError
  | validation : String → SaveError
  | integrity : SaveError
deriving Repr, DecidableEq

/-- Writing a row: replace the stored row with the same primary key, or
append a new row. -/
def upsert (db : List Series) (s : Series) : List Series :=
  if db.any (fun r => r.pk == s.pk) then
    db.map (fun r => if r.pk == s.pk then s else r)
  else db ++ [s]

/-- `models.Model.save` for `Series`: the database enforces the
`unique_together = ('season', 'number')` constraint declared in
`Series.Meta` — the write is rejected with an integrity error when a
different stored row carries the same season and number — and otherwise
the row is written. -/
def Series.save (db : List Series) (s : Series) :
    Option SaveError × List Series :=
  if db.any (fun r =>
      (r.pk != s.pk) && (r.seasonId == s.seasonId) && (r.number == s.number))
  then (some .integrity, db)
  else (none, upsert db s)

/-- `Series.clean`: checks the active-flag invariant, raising a
`ValidationError` (returned with the database unchanged) on violation, and
otherwise falls through to `super(Series, self).save(*args, **kwargs)`. -/
def Series.clean (now : Int) (db : List Series) (s : Series) :
    Option SaveError × List Series :=
  if s.is_active then
    if s.submission_deadline = none then
      (some (.validation
        "Submission deadline must be set to make the series active"), db)
    else if s.problemset = none then
      (some (.validation
        "Corresponding set of problems must be set to make the series active"), db)
    else if s.is_past_submission_deadline now then
      (some (.validation
        "Series that is past its submission deadline cannot be made active"), db)
    else s.save db
  else s.save db

/-- Listing competitions: `Competition.Meta.ordering = ['name']`. -/
def listCompetitions (l : List Competition) : List Competition :=
  List.insertionSort (fun a b => decide (a.name ≤ b.name)) l

/-- Listing user registrations: `Meta.ordering = ['added_at']`. -/
def listUserRegistrations (l : List CompetitionUserRegistration) :
    List CompetitionUserRegistration :=
  List.insertionSort (fun a b => decide (a.added_at ≤ b.added_at)) l

/-- Listing organizer registrations: `Meta.ordering = ['added_at']`. -/
def listOrgRegistrations (l : List CompetitionOrgRegistration) :
    List CompetitionOrgRegistration :=
  List.insertionSort (fun a b => decide (a.added_at ≤ b.added_at)) l

/-- Listing seasons: `Season.Meta.ordering = ['competition', 'year',
'number']`. -/
def listSeasons (l : List Season) : List Season :=
  List.insertionSort (fun a b => Season.keyLe a b) l

/-- Listing series: `Series.Meta.ordering = ['submission_deadline']`. -/
def listSeries (l : List Series) : List Series :=
  List.insertionSort (fun a b => Series.deadlineLe a b) l

/-! ### General helper lemmas -/

theorem mem_dedupFirstAux {α : Type} [DecidableEq α] :
    ∀ (l seen : List α) (a : α),
      a ∈ dedupFirstAux seen l ↔ a ∈ l ∧ a ∉ seen := by
  intro l
  induction l with
  | nil => simp [dedupFirstAux]
  | cons x xs ih =>
    intro seen a
    by_cases hx : x ∈ seen
    · simp only [dedupFirstAux, if_pos hx, ih, List.mem_cons]
      by_cases hax : a = x
      · subst hax
        simp [hx]
      · simp [hax]
    · simp only [dedupFirstAux, if_neg hx, List.mem_cons, ih]
      by_cases hax : a = x
      · subst hax
        simp [hx]
      · simp [hax]

theorem mem_dedupFirst {α : Type} [DecidableEq α] (l : List α) (a : α) :
    a ∈ dedupFirst l ↔ a ∈ l := by
  unfold dedupFirst
  simp [mem_dedupFirstAux]

theorem nodup_dedupFirstAux {α : Type} [DecidableEq α] :
    ∀ (l seen : List α), (dedupFirstAux seen l).Nodup := by
  intro l
  induction l with
  | nil => intro seen; simp [dedupFirstAux]
  | cons x xs ih =>
    intro seen
    by_cases hx : x ∈ seen
    · simpa [dedupFirstAux, hx] using ih seen
    · simp only [dedupFirstAux, if_neg hx]
      refine List.nodup_cons.2 ⟨?_, ih (x :: seen)⟩
      intro hmem
      exact ((mem_dedupFirstAux xs (x :: seen) x).1 hmem).2
        (List.mem_cons_self x seen)

theorem nodup_dedupFirst {α : Type} [DecidableEq α] (l : List α) :
    (dedupFirst l).Nodup :=
  nodup_dedupFirstAux l []

theorem collectCompetitors_eq_none {l : List Series} {s : Series}
    (hmem : s ∈ l) (h : s.get_competitors = none) :
    collectCompetitors l = none := by
  induction l with
  | nil => cases hmem
  | cons a rest ih =>
    rcases List.mem_cons.1 hmem with rfl | hmem
    · unfold collectCompetitors
      rw [h]
    · unfold collectCompetitors
      rw [ih hmem]
      cases a.get_competitors <;> rfl

theorem head_filter_eq_find {α : Type} (p : α → Bool) (l : List α) :
    (l.filter p).head? = l.find? p := by
  induction l with
  | nil => rfl
  | cons a t ih =>
    by_cases h : p a = true <;> simp [List.filter_cons, List.find?_cons, h, ih]

theorem mem_of_head? {α : Type} {l : List α} {x : α} (h : l.head? = some x) :
    x ∈ l := by
  cases l with
  | nil => cases h
  | cons a t =>
    have : a = x := by simpa using h
    exact this ▸ List.mem_cons_self a t

theorem pairwise_head?_rel {α : Type} {r : α → α → Prop} {l : List α} {x : α}
    (hp : List.Pairwise r l) (hh : l.head? = some x) (hrefl : ∀ a, r a a) :
    ∀ y ∈ l, r x y := by
  cases l with
  | nil => cases hh
  | cons a t =>
    have hax : a = x := by simpa using hh
    subst hax
    intro y hy
    rcases List.mem_cons.1 hy with rfl | hyt
    · exact hrefl y
    · exact (List.pairwise_cons.1 hp).1 y hyt

/-! ### Facts about the ordering comparators -/

theorem Series.deadlineLe_refl (a : Series) : Series.deadlineLe a a = true := by
  unfold Series.deadlineLe
  cases a.submission_deadline <;> simp

theorem Series.deadlineLe_total (a b : Series) :
    Series.deadlineLe a b = true ∨ Series.deadlineLe b a = true := by
  unfold Series.deadlineLe
  cases a.submission_deadline <;> cases b.submission_deadline <;> simp <;> omega

theorem Series.deadlineLe_trans {a b c : Series}
    (h1 : Series.deadlineLe a b = true) (h2 : Series.deadlineLe b c = true) :
    Series.deadlineLe a c = true := by
  revert h1 h2
  unfold Series.deadlineLe
  generalize a.submission_deadline = x
  generalize b.submission_deadline = y
  generalize c.submission_deadline = z
  cases x <;> cases y <;> cases z <;> simp <;> omega

theorem Season.keyLe_refl (a : Season) : Season.keyLe a a = true := by
  simp [Season.keyLe]

theorem Season.keyLe_total (a b : Season) :
    Season.keyLe a b = true ∨ Season.keyLe b a = true := by
  simp only [Season.keyLe, Bool.or_eq_true, Bool.and_eq_true, decide_eq_true_iff,
    beq_iff_eq]
  omega

theorem Season.keyLe_trans {a b c : Season}
    (h1 : Season.keyLe a b = true) (h2 : Season.keyLe b c = true) :
    Season.keyLe a c = true := by
  simp only [Season.keyLe, Bool.or_eq_true, Bool.and_eq_true, decide_eq_true_iff,
    beq_iff_eq] at h1 h2 ⊢
  omega

theorem seriesOrdered_pairwise (se : Season) :
    List.Pairwise (fun a b => Series.deadlineLe a b = true) se.seriesOrdered := by
  haveI : IsTotal Series (fun a b => Series.deadlineLe a b = true) :=
    ⟨Series.deadlineLe_total⟩
  haveI : IsTrans Series (fun a b => Series.deadlineLe a b = true) :=
    ⟨fun _ _ _ h1 h2 => Series.deadlineLe_trans h1 h2⟩
  exact List.sorted_insertionSort _ se.series_set

theorem seriesOrderedDesc_pairwise (l : List Series) :
    List.Pairwise (fun a b => Series.deadlineLe b a = true)
      (List.insertionSort (fun a b => Series.deadlineLe b a) l) := by
  haveI : IsTotal Series (fun a b => Series.deadlineLe b a = true) :=
    ⟨fun a b => (Series.deadlineLe_total b a)⟩
  haveI : IsTrans Series (fun a b => Series.deadlineLe b a = true) :=
    ⟨fun _ _ _ h1 h2 => Series.deadlineLe_trans h2 h1⟩
  exact List.sorted_insertionSort _ l

theorem mem_seriesOrdered (se : Season) (s : Series) :
    s ∈ se.seriesOrdered ↔ s ∈ se.series_set :=
  List.mem_insertionSort _

theorem seasonsOrdered_pairwise (c : Competition) :
    List.Pairwise (fun a b => Season.keyLe a b = true) c.seasonsOrdered := by
  haveI : IsTotal Season (fun a b => Season.keyLe a b = true) :=
    ⟨Season.keyLe_total⟩
  haveI : IsTrans Season (fun a b => Season.keyLe a b = true) :=
    ⟨fun _ _ _ h1 h2 => Season.keyLe_trans h1 h2⟩
  exact List.sorted_insertionSort _ c.season_set

theorem mem_seasonsOrdered (c : Competition) (se : Season) :
    se ∈ c.seasonsOrdered ↔ se ∈ c.season_set :=
  List.mem_insertionSort _

/-! ### Facts about `Series.save` -/

theorem save_fst_ne_validation (db : List Series) (s : Series) (msg : String) :
    (Series.save db s).1 ≠ some (SaveError.validation msg) := by
  unfold Series.save
  by_cases h : db.any (fun r =>
      (r.pk != s.pk) && (r.seasonId == s.seasonId) && (r.number == s.number)) <;>
    simp [h]

theorem self_mem_upsert (db : List Series) (s : Series) : s ∈ upsert db s := by
  unfold upsert
  by_cases h : db.any (fun r => r.pk == s.pk) = true
  · obtain ⟨r, hr, hpk⟩ := List.any_eq_true.1 h
    simp only [h, if_true, List.mem_map]
    exact ⟨r, hr, by simp [hpk]⟩
  · simp [h]

/-! ### Sample rows, used by witnesses and counterexamples -/

/-- A sample problem set: problem 1 has three solutions (user 7 twice and
user 8 once), problem 2 has one solution by user 7. -/
def psSample : ProblemSet :=
  ⟨1, [⟨1, [⟨1, 7⟩, ⟨2, 7⟩, ⟨3, 8⟩]⟩, ⟨2, [⟨4, 7⟩]⟩]⟩

/-- An active series without a submission deadline. -/
def sNoDeadline : Series := ⟨1, 1, "Series 1", 1, some psSample, none, true⟩

/-- An active series with a deadline ahead of time 0 and a problem set. -/
def sGood : Series := ⟨2, 1, "Series 2", 2, some psSample, some 10, true⟩

/-! ### Claim theorems -/

/-- C1: saving a `Series` with `is_active` set raises a `ValidationError`
and leaves the stored rows unchanged whenever the submission deadline is
unset, or the problem-set link is unset, or the submission deadline has
already passed; such a series is never persisted as active. -/
theorem C1_active_validation (now : Int) (db : List Series) (s : Series)
    (hact : s.is_active = true)
    (hbad : s.submission_deadline = none ∨ s.problemset = none ∨
      ∃ d, s.submission_deadline = some d ∧ d < now) :
    ∃ msg, Series.clean now db s = (some (SaveError.validation msg), db) := by
  unfold Series.clean
  by_cases hd : s.submission_deadline = none
  · exact ⟨"Submission deadline must be set to make the series active",
      by simp [hact, hd]⟩
  · by_cases hp : s.problemset = none
    · exact ⟨"Corresponding set of problems must be set to make the series active",
        by simp [hact, hd, hp]⟩
    · rcases hbad with h | h | ⟨d, hdd, hlt⟩
      · exact absurd h hd
      · exact absurd h hp
      · have hpast : s.is_past_submission_deadline now = true := by
          unfold Series.is_past_submission_deadline
          rw [hdd]
          simpa using hlt
        exact ⟨"Series that is past its submission deadline cannot be made active",
          by simp [hact, hd, hp, hpast]⟩

/-- C1 witness: a concrete active series lacking a deadline is rejected
with the stored rows unchanged. -/
theorem C1_witness :
    sNoDeadline.is_active = true ∧
    ∃ msg, Series.clean 0 [] sNoDeadline = (some (SaveError.validation msg), []) :=
  ⟨rfl, C1_active_validation 0 [] sNoDeadline rfl (Or.inl rfl)⟩

/-- C2: whenever `Series.clean` reports a validation error, the error was
raised before the save step: the stored rows are returned unchanged, and
no retry happens. -/
theorem C2_validation_blocks_save (now : Int) (db : List Series) (s : Series)
    (msg : String)
    (h : (Series.clean now db s).1 = some (SaveError.validation msg)) :
    (Series.clean now db s).2 = db := by
  unfold Series.clean at h ⊢
  by_cases hact : s.is_active = true
  · by_cases hd : s.submission_deadline = none
    · simp [hact, hd]
    · by_cases hp : s.problemset = none
      · simp [hact, hd, hp]
      · by_cases hpast : s.is_past_submission_deadline now = true
        · simp [hact, hd, hp, hpast]
        · simp only [hact, hd, hp, hpast, if_true, if_false] at h
          exact absurd h (save_fst_ne_validation db s msg)
  · simp only [hact, if_false] at h
    exact absurd h (save_fst_ne_validation db s msg)

/-- C2 witness: at the concrete rejected series, the error is visible and
the stored rows come back unchanged. -/
theorem C2_witness :
    (Series.clean 0 [] sNoDeadline).1 =
      some (SaveError.validation
        "Submission deadline must be set to make the series active") ∧
    (Series.clean 0 [] sNoDeadline).2 = [] :=
  ⟨by decide, C2_validation_blocks_save 0 [] sNoDeadline
    "Submission deadline must be set to make the series active" (by decide)⟩

/-- C10: `Series.clean` is not a pure validation check — whenever the
active-flag validation passes (or `is_active` is unset) it falls through
to the model save and persists the instance. -/
theorem C10_clean_performs_save (now : Int) (db : List Series) (s : Series)
    (hok : s.is_active = false ∨
      ∃ d, s.submission_deadline = some d ∧ s.problemset ≠ none ∧ now ≤ d) :
    Series.clean now db s = Series.save db s ∧
    ((Series.save db s).1 = none → s ∈ (Series.clean now db s).2) := by
  have heq : Series.clean now db s = Series.save db s := by
    unfold Series.clean
    rcases hok with hact | ⟨d, hdd, hp, hle⟩
    · simp [hact]
    · have hd : s.submission_deadline ≠ none := by simp [hdd]
      have hpast : s.is_past_submission_deadline now = false := by
        unfold Series.is_past_submission_deadline
        rw [hdd]
        simpa using hle
      by_cases hact : s.is_active = true <;> simp [hact, hd, hp, hpast]
  refine ⟨heq, fun hnone => ?_⟩
  rw [heq]
  unfold Series.save at hnone ⊢
  by_cases h : db.any (fun r =>
      (r.pk != s.pk) && (r.seasonId == s.seasonId) && (r.number == s.number)) = true
  · simp [h] at hnone
  · simp only [h]
    simpa using self_mem_upsert db s

/-- C10 witness: cleaning a concrete valid active series writes it to the
store. -/
theorem C10_witness :
    Series.clean 0 [] sGood = Series.save [] sGood ∧
    sGood ∈ (Series.clean 0 [] sGood).2 := by
  have h := C10_clean_performs_save 0 [] sGood
    (Or.inr ⟨10, rfl, by decide, by decide⟩)
  exact ⟨h.1, h.2 (by decide)⟩

theorem get_active_season_eq_head (now : Int) (c : Competition) :
    c.get_active_season now =
      ((c.seasonsOrdered).filter (Season.activeFilter now)).head? := by
  unfold Competition.get_active_season
  cases hX : ((c.seasonsOrdered).filter (Season.activeFilter now)).isEmpty with
  | false => simp [hX]
  | true =>
    have hnil := List.isEmpty_iff.mp hX
    simp [hX, hnil]

/-- C4: `get_active_season` returns a season only when `now` is strictly
inside its `(start, end)` window; it returns `None` when no season's window
strictly contains `now`; and it delivers the first match of the model
ordering (the first satisfying element of the ordered season list). -/
theorem C4_get_active_season (now : Int) (c : Competition) :
    (∀ se, c.get_active_season now = some se →
        se ∈ c.season_set ∧ se.start < now ∧ now < se.«end») ∧
    ((∀ se ∈ c.season_set, ¬(se.start < now ∧ now < se.«end»)) →
        c.get_active_season now = none) ∧
    c.get_active_season now =
      (c.seasonsOrdered).find? (Season.activeFilter now) := by
  have heq := get_active_season_eq_head now c
  refine ⟨?_, ?_, ?_⟩
  · intro se hse
    rw [heq] at hse
    have hmem := List.mem_filter.1 (mem_of_head? hse)
    refine ⟨(mem_seasonsOrdered c se).1 hmem.1, ?_⟩
    simpa [Season.activeFilter] using hmem.2
  · intro hall
    rw [heq]
    have hnil : (c.seasonsOrdered).filter (Season.activeFilter now) = [] := by
      rw [List.filter_eq_nil_iff]
      intro a ha
      simpa [Season.activeFilter] using hall a ((mem_seasonsOrdered c a).1 ha)
    simp [hnil]
  · rw [heq, head_filter_eq_find]

/-- Two seasons of the same competition whose windows both contain time 50;
`seasonW1` comes first in the `(competition, year, number)` ordering. -/
def seasonW1 : Season := ⟨1, 1, 2014, 1, "Autumn", none, 0, 100, []⟩

/-- The second overlapping sample season. -/
def seasonW2 : Season := ⟨2, 1, 2014, 2, "Spring", none, 10, 90, []⟩

/-- A sample competition holding the two overlapping seasons, stored out of
order. -/
def compW : Competition := ⟨"FKS", none, [seasonW2, seasonW1]⟩

/-- C4 witness: with two overlapping seasons the first one in the model
ordering is returned, and its window strictly contains the current time. -/
theorem C4_witness :
    Competition.get_active_season 50 compW = some seasonW1 ∧
    seasonW1.start < 50 ∧ 50 < seasonW1.«end» := by
  have h := (C4_get_active_season 50 compW).1 seasonW1 (by decide)
  exact ⟨by decide, h.2⟩

/-- A season whose window starts exactly at time 5. -/
def seasonC5 : Season := ⟨1, 1, 2014, 1, "Autumn", none, 5, 10, []⟩

/-- A competition holding only `seasonC5`. -/
def compC5 : Competition := ⟨"FKS", none, [seasonC5]⟩

/-- C5 counterexample: the claim's half-open `[start, end)` convention
counts a season whose start equals the current time as active, but
`get_active_season` at that very instant returns `None` (the filter is
`start__lt=now()`, strict). -/
theorem C5_counterexample :
    seasonC5 ∈ compC5.season_set ∧
    seasonC5.start ≤ 5 ∧ 5 < seasonC5.«end» ∧
    Competition.get_active_season 5 compC5 = none := by decide

/-- C5 amended: a season's active status, as computed by
`get_active_season`, holds exactly when the current time lies strictly
within the open interval `(start, end)`: a season whose start equals the
current time does not count as active, and neither does one whose end
equals it. -/
theorem C5_amended_strict_window (now : Int) (c : Competition) :
    ((∃ se, c.get_active_season now = some se) ↔
      ∃ se ∈ c.season_set, se.start < now ∧ now < se.«end») ∧
    (∀ se ∈ c.season_set, se.start = now ∨ se.«end» = now →
      c.get_active_season now ≠ some se) := by
  have heq := get_active_season_eq_head now c
  constructor
  · constructor
    · rintro ⟨se, hse⟩
      rw [heq] at hse
      have hmem := List.mem_filter.1 (mem_of_head? hse)
      exact ⟨se, (mem_seasonsOrdered c se).1 hmem.1,
        by simpa [Season.activeFilter] using hmem.2⟩
    · rintro ⟨se, hmem, hwin⟩
      rw [heq]
      cases hh : ((c.seasonsOrdered).filter (Season.activeFilter now)).head? with
      | some x => exact ⟨x, rfl⟩
      | none =>
        have hnil := List.head?_eq_none_iff.1 hh
        rw [List.filter_eq_nil_iff] at hnil
        exact absurd (by simpa [Season.activeFilter] using hwin)
          (hnil se ((mem_seasonsOrdered c se).2 hmem))
  · intro se _ hbound hse
    rw [heq] at hse
    have hmem := List.mem_filter.1 (mem_of_head? hse)
    have hwin : se.start < now ∧ now < se.«end» := by
      simpa [Season.activeFilter] using hmem.2
    rcases hbound with h | h
    · exact absurd hwin.1 (by omega)
    · exact absurd hwin.2 (by omega)

/-- C5 amended-claim witness: a time strictly inside the only season's
window yields a season, while at the boundary instant `start = now` that
season is not returned. -/
theorem C5_amended_witness :
    (∃ se, Competition.get_active_season 7 compC5 = some se) ∧
    Competition.get_active_season 5 compC5 ≠ some seasonC5 :=
  ⟨((C5_amended_strict_window 7 compC5).1).2 ⟨seasonC5, by decide, by decide⟩,
   (C5_amended_strict_window 5 compC5).2 seasonC5 (by decide)
     (Or.inl (by decide))⟩

/-- A series whose deadline is exactly the current instant used below. -/
def seriesC3 : Series := ⟨1, 1, "Round 1", 1, none, some 5, false⟩

/-- A season holding only `seriesC3`. -/
def seasonC3 : Season := ⟨1, 1, 2014, 1, "Autumn", none, 0, 100, [seriesC3]⟩

/-- C3 counterexample: at the instant a series' deadline is reached, the
series is not yet past its deadline (`now > deadline` is strict), so the
claim's "every series is past its deadline" case does not apply; yet the
fallback branch runs and returns a series whose submission deadline is not
in the future, so the claim's remaining case ("returns the
earliest-deadline series whose submission deadline is still in the
future") is violated. -/
theorem C3_counterexample :
    Season.get_series_nearest_deadline 5 seasonC3 = some seriesC3 ∧
    Series.is_past_submission_deadline 5 seriesC3 = false ∧
    Series.deadlineGtNow 5 seriesC3 = false := by decide

/-- C3 amended: `get_series_nearest_deadline` returns `None` for a season
with no series; when no series' submission deadline is still ahead of the
current time (a deadline equal to the current instant counts here, though
it is not yet "past"), it returns a series with maximal submission
deadline; and otherwise it returns a still-open series with minimal
deadline among the still-open ones. -/
theorem C3_amended_nearest_deadline (now : Int) (se : Season) :
    (se.series_set = [] → se.get_series_nearest_deadline now = none) ∧
    (se.series_set ≠ [] →
      (∀ s ∈ se.series_set, Series.deadlineGtNow now s = false) →
      ∃ m, se.get_series_nearest_deadline now = some m ∧ m ∈ se.series_set ∧
        ∀ s ∈ se.series_set, Series.deadlineLe s m = true) ∧
    (∀ s0 ∈ se.series_set, Series.deadlineGtNow now s0 = true →
      ∃ e, se.get_series_nearest_deadline now = some e ∧ e ∈ se.series_set ∧
        Series.deadlineGtNow now e = true ∧
        ∀ s ∈ se.series_set, Series.deadlineGtNow now s = true →
          Series.deadlineLe e s = true) := by
  refine ⟨?_, ?_, ?_⟩
  · intro h
    unfold Season.get_series_nearest_deadline
    simp [Season.seriesOrdered, h]
  · intro hne hall
    have hfil : (se.seriesOrdered).filter (Series.deadlineGtNow now) = [] := by
      rw [List.filter_eq_nil_iff]
      intro a ha
      simp [hall a ((mem_seriesOrdered se a).1 ha)]
    have hlen := (List.perm_insertionSort
      (fun a b => Series.deadlineLe b a) se.series_set).length_eq
    have hdne :
        List.insertionSort (fun a b => Series.deadlineLe b a) se.series_set ≠ [] := by
      intro h0
      rw [h0] at hlen
      exact hne (List.length_eq_zero.1 hlen.symm)
    cases hH : (List.insertionSort
        (fun a b => Series.deadlineLe b a) se.series_set).head? with
    | none => exact absurd (List.head?_eq_none_iff.1 hH) hdne
    | some m =>
      have hres : se.get_series_nearest_deadline now = some m := by
        unfold Season.get_series_nearest_deadline
        have h2 : se.series_set.isEmpty = false := List.isEmpty_eq_false.2 hne
        simp [hfil, h2, hH]
      have hmem : m ∈ se.series_set :=
        (List.mem_insertionSort _).1 (mem_of_head? hH)
      refine ⟨m, hres, hmem, ?_⟩
      intro s hs
      exact pairwise_head?_rel (seriesOrderedDesc_pairwise se.series_set) hH
        Series.deadlineLe_refl s ((List.mem_insertionSort _).2 hs)
  · intro s0 hs0 hgt
    have hs0' : s0 ∈ (se.seriesOrdered).filter (Series.deadlineGtNow now) :=
      List.mem_filter.2 ⟨(mem_seriesOrdered se s0).2 hs0, hgt⟩
    have hfne : (se.seriesOrdered).filter (Series.deadlineGtNow now) ≠ [] :=
      List.ne_nil_of_mem hs0'
    cases hH : ((se.seriesOrdered).filter (Series.deadlineGtNow now)).head? with
    | none => exact absurd (List.head?_eq_none_iff.1 hH) hfne
    | some e =>
      have hres : se.get_series_nearest_deadline now = some e := by
        unfold Season.get_series_nearest_deadline
        have h1 : ((se.seriesOrdered).filter (Series.deadlineGtNow now)).isEmpty
            = false := List.isEmpty_eq_false.2 hfne
        simp [h1, hH]
      have hmemf := List.mem_filter.1 (mem_of_head? hH)
      refine ⟨e, hres, (mem_seriesOrdered se e).1 hmemf.1, hmemf.2, ?_⟩
      intro s hs hsgt
      exact pairwise_head?_rel
        ((seriesOrdered_pairwise se).filter (Series.deadlineGtNow now)) hH
        Series.deadlineLe_refl s
        (List.mem_filter.2 ⟨(mem_seriesOrdered se s).2 hs, hsgt⟩)

/-- A sample series with deadline 10. -/
def seriesN1 : Series := ⟨1, 1, "Round 1", 1, none, some 10, false⟩

/-- A sample series with deadline 20. -/
def seriesN2 : Series := ⟨2, 1, "Round 2", 2, none, some 20, false⟩

/-- A season holding the two sample series, stored out of deadline order. -/
def seasonN : Season := ⟨1, 1, 2014, 1, "Autumn", none, 0, 100, [seriesN2, seriesN1]⟩

/-- C3 amended-claim witness: at time 5 both series are open and an
earliest-deadline open series is returned; at time 99 none is open and a
maximal-deadline series is returned. -/
theorem C3_amended_witness :
    (∃ e, Season.get_series_nearest_deadline 5 seasonN = some e ∧
      e ∈ seasonN.series_set ∧ Series.deadlineGtNow 5 e = true ∧
      ∀ s ∈ seasonN.series_set, Series.deadlineGtNow 5 s = true →
        Series.deadlineLe e s = true) ∧
    (∃ m, Season.get_series_nearest_deadline 99 seasonN = some m ∧
      m ∈ seasonN.series_set ∧
      ∀ s ∈ seasonN.series_set, Series.deadlineLe s m = true) :=
  ⟨(C3_amended_nearest_deadline 5 seasonN).2.2 seriesN1 (by decide) (by decide),
   (C3_amended_nearest_deadline 99 seasonN).2.1 (by decide) (by decide)⟩

theorem mem_collect_flatten {L : List Series} {lists : List (List Nat)}
    (h : collectCompetitors L = some lists) (u : Nat) :
    u ∈ lists.flatten ↔
      ∃ s ∈ L, ∃ ls, s.get_competitors = some ls ∧ u ∈ ls := by
  induction L generalizing lists with
  | nil =>
    have hnil : lists = [] := by
      unfold collectCompetitors at h
      exact (Option.some.inj h).symm
    subst hnil
    simp
  | cons a rest ih =>
    unfold collectCompetitors at h
    cases ha : a.get_competitors with
    | none =>
      rw [ha] at h
      cases hr : collectCompetitors rest <;> rw [hr] at h <;> cases h
    | some la =>
      rw [ha] at h
      cases hr : collectCompetitors rest with
      | none =>
        rw [hr] at h
        cases h
      | some lrest =>
        rw [hr] at h
        have hlists : lists = la :: lrest := (Option.some.inj h).symm
        subst hlists
        simp only [List.flatten_cons, List.mem_append, List.mem_cons]
        constructor
        · rintro (hu | hu)
          · exact ⟨a, Or.inl rfl, la, ha, hu⟩
          · obtain ⟨s, hs, ls, hsl, hu⟩ := (ih hr).1 hu
            exact ⟨s, Or.inr hs, ls, hsl, hu⟩
        · rintro ⟨s, hs | hs, ls, hsl, hu⟩
          · subst hs
            rw [ha] at hsl
            rw [Option.some.inj hsl]
            exact Or.inl hu
          · exact Or.inr ((ih hr).2 ⟨s, hs, ls, hsl, hu⟩)

theorem series_get_competitors_mem (s : Series) (u : Nat) :
    (∃ ls, s.get_competitors = some ls ∧ u ∈ ls) ↔
      ∃ ps, s.problemset = some ps ∧
        ∃ p ∈ ps.problems, ∃ sol ∈ p.usersolution_set, sol.user = u := by
  unfold Series.get_competitors
  cases hps : s.problemset with
  | none => simp
  | some ps =>
    simp [mem_dedupFirst, List.mem_flatten, List.mem_map, Problem.submitters]

/-- C6: a competitor query returns each submitting user exactly once.  For
a series, the members are exactly the users with at least one solution to
a problem of the linked set and each appears once; for a season, the
members are exactly the users who submitted in at least one of its series
(possibly several), again each appearing once. -/
theorem C6_competitors_distinct :
    (∀ (s : Series) (ps : ProblemSet) (l : List Nat) (u : Nat),
      s.problemset = some ps → s.get_competitors = some l →
      (u ∈ l ↔ ∃ p ∈ ps.problems, ∃ sol ∈ p.usersolution_set, sol.user = u) ∧
      (u ∈ l → l.count u = 1)) ∧
    (∀ (se : Season) (l : List Nat) (u : Nat),
      se.get_competitors = some l →
      (u ∈ l ↔ ∃ s ∈ se.series_set, ∃ ps, s.problemset = some ps ∧
        ∃ p ∈ ps.problems, ∃ sol ∈ p.usersolution_set, sol.user = u) ∧
      (u ∈ l → l.count u = 1)) := by
  constructor
  · intro s ps l u hps hl
    unfold Series.get_competitors at hl
    rw [hps] at hl
    have hleq : l = dedupFirst ((ps.problems.map Problem.submitters).flatten) :=
      (Option.some.inj hl).symm
    subst hleq
    refine ⟨?_, fun hu => List.count_eq_one_of_mem (nodup_dedupFirst _) hu⟩
    simp [mem_dedupFirst, List.mem_flatten, List.mem_map, Problem.submitters]
  · intro se l u hl
    unfold Season.get_competitors at hl
    cases hM : collectCompetitors se.seriesOrdered with
    | none => rw [hM] at hl; cases hl
    | some lists =>
      rw [hM] at hl
      have hleq : l = dedupFirst lists.flatten := (Option.some.inj hl).symm
      subst hleq
      refine ⟨?_, fun hu => List.count_eq_one_of_mem (nodup_dedupFirst _) hu⟩
      rw [mem_dedupFirst, mem_collect_flatten hM u]
      constructor
      · rintro ⟨s, hs, hex⟩
        exact ⟨s, (mem_seriesOrdered se s).1 hs,
          (series_get_competitors_mem s u).1 hex⟩
      · rintro ⟨s, hs, hex⟩
        exact ⟨s, (mem_seriesOrdered se s).2 hs,
          (series_get_competitors_mem s u).2 hex⟩

/-- A second sample problem set whose single problem was solved by users 7
and 9. -/
def psSampleB : ProblemSet := ⟨2, [⟨3, [⟨5, 7⟩, ⟨6, 9⟩]⟩]⟩

/-- A sample series linked to `psSample` (users 7 and 8 submitted). -/
def seriesCompA : Series := ⟨1, 1, "Round 1", 1, some psSample, some 10, false⟩

/-- A sample series linked to `psSampleB` (users 7 and 9 submitted). -/
def seriesCompB : Series := ⟨2, 1, "Round 2", 2, some psSampleB, some 20, false⟩

/-- A season holding both sample series; user 7 submitted in both. -/
def seasonComp : Season :=
  ⟨1, 1, 2014, 1, "Autumn", none, 0, 100, [seriesCompA, seriesCompB]⟩

/-- C6 witness: user 7 solved several problems of `seriesCompA` and
submitted in both series of `seasonComp`, yet appears once in each
result; user 9, who submitted only in the second series, is a member of
the season's result by the completeness direction. -/
theorem C6_witness :
    Series.get_competitors seriesCompA = some [7, 8] ∧
    ([7, 8] : List Nat).count 7 = 1 ∧
    Season.get_competitors seasonComp = some [7, 8, 9] ∧
    ([7, 8, 9] : List Nat).count 7 = 1 ∧
    (9 : Nat) ∈ ([7, 8, 9] : List Nat) :=
  ⟨by decide,
   (C6_competitors_distinct.1 seriesCompA psSample [7, 8] 7 rfl (by decide)).2
     (by decide),
   by decide,
   (C6_competitors_distinct.2 seasonComp [7, 8, 9] 7 (by decide)).2 (by decide),
   (C6_competitors_distinct.2 seasonComp [7, 8, 9] 9 (by decide)).1.2
     ⟨seriesCompB, by decide, psSampleB, rfl, by decide⟩⟩

/-- C9: a series whose optional problem-set link is unset makes
`get_competitors` dereference the missing set and fail with a runtime
error (`AttributeError`, modelled as `none`) instead of returning an empty
collection; a season containing such a series propagates the failure. -/
theorem C9_missing_problemset_fails (s : Series) (se : Season)
    (hps : s.problemset = none) :
    s.get_competitors = none ∧ s.get_competitors ≠ some [] ∧
    (s ∈ se.series_set → se.get_competitors = none) := by
  have h1 : s.get_competitors = none := by
    unfold Series.get_competitors
    rw [hps]
  refine ⟨h1, by simp [h1], fun hmem => ?_⟩
  unfold Season.get_competitors
  rw [collectCompetitors_eq_none ((mem_seriesOrdered se s).2 hmem) h1]

/-- A series with no linked problem set. -/
def seriesNoPs : Series := ⟨3, 1, "Round 3", 3, none, some 30, false⟩

/-- A season holding a healthy series and `seriesNoPs`. -/
def seasonNoPs : Season :=
  ⟨2, 1, 2014, 2, "Spring", none, 0, 100, [seriesCompA, seriesNoPs]⟩

/-- C9 witness: the failure is observable on concrete data. -/
theorem C9_witness :
    Series.get_competitors seriesNoPs = none ∧
    Season.get_competitors seasonNoPs = none := by
  have h := C9_missing_problemset_fails seriesNoPs seasonNoPs rfl
  exact ⟨h.1, h.2.2 (by decide)⟩

/-- Primary keys of the stored rows are pairwise distinct. -/
def pkUnique (db : List Series) : Prop :=
  db.Pairwise (fun r1 r2 => r1.pk ≠ r2.pk)

/-- The `unique_together ('season', 'number')` invariant: two distinct
stored rows of the same season carry different sequence numbers. -/
def uniqueSeasonNumber (db : List Series) : Prop :=
  db.Pairwise (fun r1 r2 => r1.seasonId = r2.seasonId → r1.number ≠ r2.number)

theorem save_preserves_unique (db : List Series) (s : Series)
    (hpk : pkUnique db) (huniq : uniqueSeasonNumber db) :
    pkUnique (Series.save db s).2 ∧ uniqueSeasonNumber (Series.save db s).2 := by
  unfold Series.save
  by_cases hc : db.any (fun r =>
      (r.pk != s.pk) && (r.seasonId == s.seasonId) && (r.number == s.number)) = true
  · rw [if_pos hc]
    exact ⟨hpk, huniq⟩
  · have hnc : ∀ r ∈ db, r.pk ≠ s.pk →
        r.seasonId = s.seasonId → r.number ≠ s.number := by
      intro r hr hpkne hseq hnum
      exact hc (List.any_eq_true.2 ⟨r, hr, by simp [hpkne, hseq, hnum]⟩)
    rw [if_neg hc]
    unfold upsert
    by_cases hex : db.any (fun r => r.pk == s.pk) = true
    · rw [if_pos hex]
      have hcomb : List.Pairwise (fun a b =>
          ((if a.pk == s.pk then s else a).pk ≠
            (if b.pk == s.pk then s else b).pk) ∧
          ((if a.pk == s.pk then s else a).seasonId =
              (if b.pk == s.pk then s else b).seasonId →
            (if a.pk == s.pk then s else a).number ≠
              (if b.pk == s.pk then s else b).number)) db := by
        refine List.Pairwise.imp_of_mem ?_ (hpk.and huniq)
        intro a b ha hb hab
        by_cases hA : a.pk = s.pk <;> by_cases hB : b.pk = s.pk
        · exact absurd (hA.trans hB.symm) hab.1
        · simp only [hA, hB, beq_self_eq_true, if_true, beq_iff_eq, if_neg hB]
          exact ⟨fun h => hB h.symm,
            fun hseq hnum => hnc b hb hB hseq.symm hnum.symm⟩
        · simp only [hB, beq_self_eq_true, if_true, beq_iff_eq, if_neg hA]
          exact ⟨hA, fun hseq hnum => hnc a ha hA hseq hnum⟩
        · simp only [beq_iff_eq, if_neg hA, if_neg hB]
          exact hab
      constructor
      · unfold pkUnique
        rw [List.pairwise_map]
        exact hcomb.imp (fun h => h.1)
      · unfold uniqueSeasonNumber
        rw [List.pairwise_map]
        exact hcomb.imp (fun h => h.2)
    · rw [if_neg hex]
      have hall : ∀ r ∈ db, r.pk ≠ s.pk := by
        intro r hr hrs
        exact hex (List.any_eq_true.2 ⟨r, hr, by simp [hrs]⟩)
      constructor
      · unfold pkUnique
        rw [List.pairwise_append]
        refine ⟨hpk, List.pairwise_singleton _ _, ?_⟩
        intro a ha b hb
        have hbs : b = s := by simpa using hb
        subst hbs
        exact hall a ha
      · unfold uniqueSeasonNumber
        rw [List.pairwise_append]
        refine ⟨huniq, List.pairwise_singleton _ _, ?_⟩
        intro a ha b hb
        have hbs : b = s := by simpa using hb
        subst hbs
        exact fun hseq => hnc a ha (hall a ha) hseq

/-- C7: distinct stored series of the same season have different sequence
numbers — the (season, number) pair identifies a series — and the model
save, as well as `Series.clean` which invokes it, preserves this
uniqueness (together with primary-key uniqueness). -/
theorem C7_season_number_unique (now : Int) (db : List Series) (s : Series)
    (hpk : pkUnique db) (huniq : uniqueSeasonNumber db) :
    (pkUnique (Series.save db s).2 ∧
      uniqueSeasonNumber (Series.save db s).2) ∧
    (pkUnique (Series.clean now db s).2 ∧
      uniqueSeasonNumber (Series.clean now db s).2) := by
  refine ⟨save_preserves_unique db s hpk huniq, ?_⟩
  have hcases : (Series.clean now db s).2 = db ∨
      Series.clean now db s = Series.save db s := by
    unfold Series.clean
    by_cases hact : s.is_active = true
    · by_cases hd : s.submission_deadline = none
      · left
        simp [hact, hd]
      · by_cases hp : s.problemset = none
        · left
          simp [hact, hd, hp]
        · by_cases hpast : s.is_past_submission_deadline now = true
          · left
            simp [hact, hd, hp, hpast]
          · right
            simp [hact, hd, hp, hpast]
    · right
      simp [hact]
  rcases hcases with h | h
  · rw [h]
    exact ⟨hpk, huniq⟩
  · rw [h]
    exact save_preserves_unique db s hpk huniq

/-- C7 witness: adding a second series with the same season but a new
number keeps the stored rows unique, through both save and clean. -/
theorem C7_witness :
    pkUnique [seriesN1] ∧ uniqueSeasonNumber [seriesN1] ∧
    uniqueSeasonNumber (Series.save [seriesN1] seriesN2).2 ∧
    uniqueSeasonNumber (Series.clean 0 [seriesN1] seriesN2).2 := by
  have hpk : pkUnique [seriesN1] := List.pairwise_singleton _ _
  have hu : uniqueSeasonNumber [seriesN1] := List.pairwise_singleton _ _
  have h := C7_season_number_unique 0 [seriesN1] seriesN2 hpk hu
  exact ⟨hpk, hu, h.1.2, h.2.2⟩

/-- A sample series with sequence number 1 but the later deadline. -/
def srA : Series := ⟨1, 1, "A", 1, none, some 10, false⟩

/-- A sample series of the same season with number 2 but the earlier
deadline. -/
def srB : Series := ⟨2, 1, "B", 2, none, some 5, false⟩

/-- C8 counterexample: series listings are ordered by
`Series.Meta.ordering = ['submission_deadline']`, not by the composite
season/number key — the listing puts the number-2 series of the same
season before the number-1 series. -/
theorem C8_counterexample :
    listSeries [srA, srB] = [srB, srA] ∧
    srA.seasonId = srB.seasonId ∧ srA.number < srB.number := by decide

/-- C8 amended: listings are sorted by the declared ordering keys —
competitions by name, registrations by creation timestamp, seasons by the
composite (competition, year, number) key, and series by submission
deadline (not by a season/number key). -/
theorem C8_amended_listing_order (lc : List Competition)
    (lu : List CompetitionUserRegistration)
    (lo : List CompetitionOrgRegistration)
    (ls : List Season) (lr : List Series) :
    ((listCompetitions lc).Pairwise (fun a b => a.name ≤ b.name) ∧
      (listCompetitions lc).Perm lc) ∧
    ((listUserRegistrations lu).Pairwise (fun a b => a.added_at ≤ b.added_at) ∧
      (listUserRegistrations lu).Perm lu) ∧
    ((listOrgRegistrations lo).Pairwise (fun a b => a.added_at ≤ b.added_at) ∧
      (listOrgRegistrations lo).Perm lo) ∧
    ((listSeasons ls).Pairwise (fun a b => Season.keyLe a b = true) ∧
      (listSeasons ls).Perm ls) ∧
    ((listSeries lr).Pairwise (fun a b => Series.deadlineLe a b = true) ∧
      (listSeries lr).Perm lr) := by
  refine ⟨⟨?_, ?_⟩, ⟨?_, ?_⟩, ⟨?_, ?_⟩, ⟨?_, ?_⟩, ⟨?_, ?_⟩⟩
  · haveI : IsTotal Competition (fun a b => decide (a.name ≤ b.name) = true) :=
      ⟨fun a b => by simpa using le_total a.name b.name⟩
    haveI : IsTrans Competition (fun a b => decide (a.name ≤ b.name) = true) :=
      ⟨fun a b c h1 h2 => by
        simp only [decide_eq_true_iff] at h1 h2 ⊢
        exact le_trans h1 h2⟩
    exact (List.sorted_insertionSort _ lc).imp (fun h => by simpa using h)
  · exact List.perm_insertionSort _ lc
  · haveI : IsTotal CompetitionUserRegistration
        (fun a b => decide (a.added_at ≤ b.added_at) = true) :=
      ⟨fun a b => by simpa using le_total a.added_at b.added_at⟩
    haveI : IsTrans CompetitionUserRegistration
        (fun a b => decide (a.added_at ≤ b.added_at) = true) :=
      ⟨fun a b c h1 h2 => by
        simp only [decide_eq_true_iff] at h1 h2 ⊢
        omega⟩
    exact (List.sorted_insertionSort _ lu).imp (fun h => by simpa using h)
  · exact List.perm_insertionSort _ lu
  · haveI : IsTotal CompetitionOrgRegistration
        (fun a b => decide (a.added_at ≤ b.added_at) = true) :=
      ⟨fun a b => by simpa using le_total a.added_at b.added_at⟩
    haveI : IsTrans CompetitionOrgRegistration
        (fun a b => decide (a.added_at ≤ b.added_at) = true) :=
      ⟨fun a b c h1 h2 => by
        simp only [decide_eq_true_iff] at h1 h2 ⊢
        omega⟩
    exact (List.sorted_insertionSort _ lo).imp (fun h => by simpa using h)
  · exact List.perm_insertionSort _ lo
  · haveI : IsTotal Season (fun a b => Season.keyLe a b = true) :=
      ⟨Season.keyLe_total⟩
    haveI : IsTrans Season (fun a b => Season.keyLe a b = true) :=
      ⟨fun _ _ _ h1 h2 => Season.keyLe_trans h1 h2⟩
    exact List.sorted_insertionSort _ ls
  · exact List.perm_insertionSort _ ls
  · haveI : IsTotal Series (fun a b => Series.deadlineLe a b = true) :=
      ⟨Series.deadlineLe_total⟩
    haveI : IsTrans Series (fun a b => Series.deadlineLe a b = true) :=
      ⟨fun _ _ _ h1 h2 => Series.deadlineLe_trans h1 h2⟩
    exact List.sorted_insertionSort _ lr
  · exact List.perm_insertionSort _ lr

end Roots
